import Mathlib

/-
Verification development for the mcp-semantic-search server (src/src/index.ts).

The file shallowly embeds the parts of the program the claims are about:
the promise-chain operation queue (class OpQueue), the bounded-retry
engine startup (initWithRetry), the per-candidate metadata filter of the
semantic_search handler, the semantic_health handler, the semantic_clear
handler, and the static table of engine calls each tool handler makes.

JavaScript promises are embedded as settled outcomes (Except err val);
the single-threaded event loop makes the queue execution a sequential
fold over the prescribed settlements of the enqueued task functions.
-/

namespace MCPSemSearch

/-- Result delivered for one call to OpQueue.run: whether the supplied
task function fn was ever invoked, and how the promise returned by run
settled. -/
structure TaskResult (ε α : Type) where
  invoked : Bool
  outcome : Except ε α
deriving Repr

/-- Final state after a sequence of OpQueue.run calls: the value of the
shared metrics.errors counter, the settled state of the internal chain
promise (field queue of class OpQueue), and the per-task results in call
order. -/
structure QueueRun (ε α : Type) where
  errors : Nat
  chain : Except ε Unit
  results : List (TaskResult ε α)
deriving Repr

/-- Embeds OpQueue.run (src/src/index.ts lines 94-118) applied to a list
of tasks in call order.  Each task function is abstracted by the outcome
it would settle with if invoked.  The body of run awaits the previous
chain promise inside the try block; hence when the previous chain promise
is rejected, the await re-throws that error before fn is called, the
catch block rejects the new chain promise with the same error, increments
metrics.errors and re-throws to the caller.  When the previous chain
promise is resolved, fn runs; on success the new chain promise is
resolved, on failure it is rejected and metrics.errors is incremented. -/
def runQueue {ε α : Type} (errors : Nat) (prev : Except ε Unit) :
    List (Except ε α) → QueueRun ε α
  | [] => ⟨errors, prev, []⟩
  | t :: ts =>
    match prev with
    | Except.error e =>
      let r := runQueue (errors + 1) (Except.error e) ts
      ⟨r.errors, r.chain, ⟨false, Except.error e⟩ :: r.results⟩
    | Except.ok _ =>
      match t with
      | Except.ok v =>
        let r := runQueue errors (Except.ok ()) ts
        ⟨r.errors, r.chain, ⟨true, Except.ok v⟩ :: r.results⟩
      | Except.error e =>
        let r := runQueue (errors + 1) (Except.error e) ts
        ⟨r.errors, r.chain, ⟨true, Except.error e⟩ :: r.results⟩

/-- Engine-visible scheduling event: task number i starts executing
(its fn is invoked), or task number i settles. -/
inductive QEvent where
  | start (i : Nat)
  | settle (i : Nat)
deriving Repr

/-- Scheduling trace read off the per-task results: an invoked task
contributes a start event immediately followed by its settle event (the
queue awaits fn to settlement before anything else runs against the
engine); a task whose fn was never invoked contributes no event. -/
def queueTrace {ε α : Type} : Nat → List (TaskResult ε α) → List QEvent
  | _, [] => []
  | i, r :: rs =>
    (if r.invoked then [QEvent.start i, QEvent.settle i] else []) ++ queueTrace (i + 1) rs

/-- Checks that a trace is a serial FIFO schedule.  First argument: the
task currently running (none when idle); second: a lower bound on the
index of the next task allowed to start.  It holds exactly when: no task
starts while another is running (mutual exclusion), every settle matches
the running task, starts occur in strictly increasing call order (FIFO),
and a task starts only after every earlier-started task has settled. -/
def serialCheck : Option Nat → Nat → List QEvent → Bool
  | none, _, [] => true
  | some _, _, [] => false
  | none, n, QEvent.start i :: rest => decide (n ≤ i) && serialCheck (some i) (i + 1) rest
  | none, _, QEvent.settle _ :: _ => false
  | some i, n, QEvent.settle j :: rest => (i == j) && serialCheck none n rest
  | some _, _, QEvent.start _ :: _ => false

/-- Observable run of initWithRetry: how many times search.init was
invoked, the list of delays (milliseconds) slept between consecutive
attempts, and the final settlement. -/
structure InitRun (ε : Type) where
  invocations : Nat
  delays : List Nat
  result : Except ε Unit
deriving Repr

/-- Embeds the retry loop body of initWithRetry (src/src/index.ts lines
66-86): argument attempt is the 1-based attempt counter, the Nat argument
is the number of loop iterations left (maxRetries - attempt + 1).  The
behavior of search.init is abstracted by the outcome of its k-th
invocation.  On success the loop returns; on failure at the last attempt
the error is re-thrown; otherwise the loop sleeps 2000 ms and retries. -/
def initLoop {ε : Type} (init : Nat → Except ε Unit) : Nat → Nat → InitRun ε
  | _, 0 => ⟨0, [], Except.ok ()⟩
  | attempt, remaining + 1 =>
    match init attempt with
    | Except.ok _ => ⟨1, [], Except.ok ()⟩
    | Except.error e =>
      match remaining with
      | 0 => ⟨1, [], Except.error e⟩
      | r + 1 =>
        let rest := initLoop init (attempt + 1) (r + 1)
        ⟨rest.invocations + 1, 2000 :: rest.delays, rest.result⟩

/-- Embeds initWithRetry (src/src/index.ts line 66): the loop starts at
attempt 1 and runs while attempt is at most maxRetries. -/
def initWithRetry {ε : Type} (maxRetries : Nat) (init : Nat → Except ε Unit) : InitRun ε :=
  initLoop init 1 maxRetries

/-- Embeds the top-level startup code (src/src/index.ts lines 88-92):
await initWithRetry() with the default of 3 attempts; on failure the
process exits with status 1, otherwise it keeps running (none). -/
def mainInit {ε : Type} (init : Nat → Except ε Unit) : Option Nat :=
  match (initWithRetry 3 init).result with
  | Except.ok _ => none
  | Except.error _ => some 1

/-- Candidate metadata as consulted by the filter closure of the
semantic_search handler: the kind, tags and timestamp fields of the
metadata record, each possibly absent.  A candidate whose whole metadata
object is absent behaves exactly like one with all three fields absent
(every access goes through optional chaining), so it is embedded as the
all-none value.  Fields are embedded at their expected types (kind a
string, tags a string array, timestamp a number). -/
structure Meta where
  kind : Option String
  tags : Option (List String)
  timestamp : Option Int
deriving DecidableEq, Repr

/-- Caller-supplied filter arguments of the semantic_search tool: kind,
tags and since, each optional (src/src/index.ts lines 185-187). -/
structure QueryFilterSpec where
  kind : Option String
  tags : Option (List String)
  since : Option String
deriving DecidableEq, Repr

/-- Embeds line 198: if (kind and meta?.kind !== kind) return false.
A supplied kind is truthy only when non-empty; the strict inequality
holds whenever the candidate kind is absent or differs from k. -/
def kindRejects (qkind : Option String) (mkind : Option String) : Bool :=
  match qkind with
  | none => false
  | some k => decide (k ≠ "") && decide (mkind ≠ some k)

/-- Embeds line 199: if (tags and (not meta?.tags or not tags.some(t =>
meta.tags?.includes(t)))) return false.  An array is always truthy in
JavaScript, so a supplied tag list is an active constraint even when
empty; a candidate with no tags field is rejected, otherwise it is
rejected exactly when no requested tag occurs in its tag list. -/
def tagsReject (qtags : Option (List String)) (mtags : Option (List String)) : Bool :=
  match qtags with
  | none => false
  | some l =>
    match mtags with
    | none => true
    | some mt => !(l.any fun t => mt.contains t)

/-- Embeds line 200: if (since and meta?.timestamp and meta.timestamp <
Date.parse(since)) return false.  A supplied since string is truthy only
when non-empty; a candidate timestamp is truthy only when present and
non-zero; Date.parse is abstracted by the dateParse argument, where none
stands for NaN, and a numeric comparison against NaN is false in
JavaScript. -/
def sinceRejects (dateParse : String → Option Int) (qsince : Option String)
    (mts : Option Int) : Bool :=
  match qsince with
  | none => false
  | some s =>
    decide (s ≠ "") &&
      (match mts with
       | none => false
       | some t =>
         decide (t ≠ 0) &&
           (match dateParse s with
            | none => false
            | some d => decide (t < d)))

/-- Embeds the filter closure passed to search.search by the
semantic_search handler (src/src/index.ts lines 197-202): the three
rejection tests run in order and a candidate that survives all of them
is retained. -/
def filterPred (dateParse : String → Option Int) (q : QueryFilterSpec) (m : Meta) : Bool :=
  if kindRejects q.kind m.kind then false
  else if tagsReject q.tags m.tags then false
  else if sinceRejects dateParse q.since m.timestamp then false
  else true

/-- Process-wide metrics counters (src/src/index.ts lines 37-51).
startTime only feeds the derived uptime string and is omitted. -/
structure Metrics where
  searches : Nat
  documentsAdded : Nat
  documentsRemoved : Nat
  errors : Nat
deriving DecidableEq, Repr

/-- Text content of a tool response. -/
structure ToolResponse where
  text : String
deriving DecidableEq, Repr

/-- Metrics portion of the text built by the healthy branch of the
semantic_health handler (src/src/index.ts lines 144-162); the uptime and
configuration echo lines are out-of-scope formatting and are omitted. -/
def healthyText (sz : Nat) (ms : Metrics) : String :=
  "✅ Healthy\n\n📊 Metrics:\n   Documents: " ++ toString sz ++
  "\n   Searches: " ++ toString ms.searches ++
  "\n   Added: " ++ toString ms.documentsAdded ++
  "\n   Removed: " ++ toString ms.documentsRemoved ++
  "\n   Errors: " ++ toString ms.errors

/-- Embeds the semantic_health handler (src/src/index.ts lines 134-173).
The probe argument is the settlement of the direct engine call
search.search with query test and limit 1; sz is the engine size read in
the healthy branch; ms is the metrics state when the handler runs.  The
result is the settlement of the handler itself (an error value would
mean the handler re-threw) paired with the metrics state it leaves
behind: the try block formats a healthy report, the catch block turns a
probe failure into a normal unhealthy response, and neither branch
touches any counter. -/
def semanticHealthHandler (probe : Except String Unit) (sz : Nat) (ms : Metrics) :
    Except String (ToolResponse × Metrics) :=
  match probe with
  | Except.ok _ => Except.ok (⟨healthyText sz ms⟩, ms)
  | Except.error e => Except.ok (⟨"❌ Unhealthy: " ++ e⟩, ms)

/-- Engine operations the tool handlers invoke. -/
inductive EngineOp where
  | searchOp
  | addDocumentOp
  | addDocumentsOp
  | removeOp
  | sizeOp
  | clearOp
deriving DecidableEq, Repr

/-- One engine call as it appears in a handler body, tagged with whether
it occurs inside the function passed to opQueue.run. -/
structure EngineCall where
  op : EngineOp
  insideQueue : Bool
deriving DecidableEq, Repr

/-- Engine calls of the semantic_health handler (src/src/index.ts lines
134-173): the probe search at line 136 and, when the probe succeeds, the
size read at line 148; the handler never calls opQueue.run, so both are
direct. -/
def healthEngineCalls (probeOk : Bool) : List EngineCall :=
  ⟨EngineOp.searchOp, false⟩ :: (if probeOk then [⟨EngineOp.sizeOp, false⟩] else [])

/-- Engine calls of the semantic_search handler (src/src/index.ts lines
190-232): one search, inside opQueue.run. -/
def searchEngineCalls : List EngineCall := [⟨EngineOp.searchOp, true⟩]

/-- Engine calls of the semantic_index handler (src/src/index.ts lines
246-267): addDocument and the size read for the acknowledgment, both
inside opQueue.run. -/
def indexEngineCalls : List EngineCall :=
  [⟨EngineOp.addDocumentOp, true⟩, ⟨EngineOp.sizeOp, true⟩]

/-- Engine calls of the semantic_index_batch handler (src/src/index.ts
lines 283-303): addDocuments and the size read, both inside
opQueue.run. -/
def indexBatchEngineCalls : List EngineCall :=
  [⟨EngineOp.addDocumentsOp, true⟩, ⟨EngineOp.sizeOp, true⟩]

/-- Engine calls of the semantic_remove handler (src/src/index.ts lines
315-332): the remove call and, when it reports a removal, the size read
for the acknowledgment, both inside opQueue.run. -/
def removeEngineCalls (found : Bool) : List EngineCall :=
  ⟨EngineOp.removeOp, true⟩ :: (if found then [⟨EngineOp.sizeOp, true⟩] else [])

/-- Engine calls of the semantic_stats handler (src/src/index.ts lines
342-366): the size read at line 348, made directly without opQueue.run. -/
def statsEngineCalls : List EngineCall := [⟨EngineOp.sizeOp, false⟩]

/-- Engine calls of the semantic_clear handler (src/src/index.ts lines
378-399): nothing when confirm is false (the handler returns before
touching the queue); with confirm true, the size read and the clear,
inside opQueue.run. -/
def clearEngineCalls (confirm : Bool) : List EngineCall :=
  if confirm then [⟨EngineOp.sizeOp, true⟩, ⟨EngineOp.clearOp, true⟩] else []

/-- Observable outcome of one semantic_clear handler call: the response
text, the engine operations actually executed, whether a task was
submitted to the operation queue, and the metrics state left behind. -/
structure ClearOutcome where
  response : ToolResponse
  engineOps : List EngineOp
  submittedToQueue : Bool
  metrics : Metrics
deriving DecidableEq, Repr

/-- Embeds the semantic_clear handler (src/src/index.ts lines 378-399).
With confirm false it returns the cancellation text before reaching
opQueue.run: no engine operation runs, no task is enqueued and the
metrics are untouched.  With confirm true it enqueues a task that reads
the size and clears the index (the embedded task is taken as running and
succeeding); the handler body never mutates any counter. -/
def semanticClearHandler (confirm : Bool) (sz : Nat) (storePath : String)
    (ms : Metrics) : ClearOutcome :=
  if !confirm then
    ⟨⟨"⚠️ Cancelled. Set confirm: true to proceed"⟩, [], false, ms⟩
  else
    ⟨⟨"✅ Cleared " ++ toString sz ++ " documents\n💾 Saved to " ++ storePath⟩,
      [EngineOp.sizeOp, EngineOp.clearOp], true, ms⟩

/-- C1: evaluation of OpQueue.run at the failing input.  Two tasks are
enqueued: the first rejects with boom, the second would resolve with 1.
The code gives: the second task is never invoked, its promise rejects
with the FIRST task error, and metrics.errors reaches 2 — contradicting
the claim that task N+1 is still invoked, settles with its own outcome,
and that a failure never propagates past the task that produced it. -/
theorem opQueue_failure_cascade :
    runQueue 0 (Except.ok ()) [Except.error "boom", Except.ok 1] =
      ⟨2, Except.error "boom",
        [⟨true, Except.error "boom"⟩, ⟨false, Except.error "boom"⟩]⟩ := rfl

/-- Helper for C2: starting from any chain state and any lower index
bound, the scheduling trace of a queue run passes the serial FIFO
check. -/
theorem serialCheck_runQueue {ε α : Type} (ts : List (Except ε α)) :
    ∀ (errs : Nat) (prev : Except ε Unit) (n i : Nat), n ≤ i →
      serialCheck none n (queueTrace i (runQueue errs prev ts).results) = true := by
  induction ts with
  | nil =>
    intro errs prev n i _
    simp [runQueue, queueTrace, serialCheck]
  | cons t ts ih =>
    intro errs prev n i h
    cases prev with
    | error e =>
      simpa [runQueue, queueTrace] using
        ih (errs + 1) (Except.error e) n (i + 1) (Nat.le_succ_of_le h)
    | ok u =>
      cases t with
      | ok v =>
        simp [runQueue, queueTrace, serialCheck, h]
        exact ih errs (Except.ok ()) (i + 1) (i + 1) (Nat.le_refl _)
      | error e =>
        simp [runQueue, queueTrace, serialCheck, h]
        exact ih (errs + 1) (Except.error e) (i + 1) (i + 1) (Nat.le_refl _)

/-- C2: for every sequence of enqueued tasks, the scheduling trace of
OpQueue.run is a serial FIFO schedule: at most one task is running at
any instant, every settle matches the running task, tasks begin in the
order run was called, and a task begins only after every
earlier-started task has settled. -/
theorem opQueue_fifo_mutual_exclusion (ts : List (Except String Nat)) :
    serialCheck none 0 (queueTrace 0 (runQueue 0 (Except.ok ()) ts).results) = true :=
  serialCheck_runQueue ts 0 (Except.ok ()) 0 0 (Nat.le_refl 0)

/-- Helper for C5: if init fails at attempts a, a+1, ..., a+f-1 and
succeeds at attempt a+f, with f strictly below the remaining budget m,
then the loop stops after f+1 invocations with f delays of 2000 ms. -/
theorem initLoop_success {ε : Type} (init : Nat → Except ε Unit) :
    ∀ (f a m : Nat), f < m →
      (∀ j, a ≤ j → j < a + f → init j ≠ Except.ok ()) →
      init (a + f) = Except.ok () →
      initLoop init a m = ⟨f + 1, List.replicate f 2000, Except.ok ()⟩ := by
  intro f
  induction f with
  | zero =>
    intro a m hm _ hok
    obtain ⟨m', rfl⟩ : ∃ m', m = m' + 1 := ⟨m - 1, by omega⟩
    simp only [Nat.add_zero] at hok
    simp [initLoop, hok, List.replicate]
  | succ f ih =>
    intro a m hm hfail hok
    obtain ⟨m', rfl⟩ : ∃ m', m = m' + 1 := ⟨m - 1, by omega⟩
    have ha : init a ≠ Except.ok () := hfail a (Nat.le_refl a) (by omega)
    cases hctor : init a with
    | ok u => exact absurd (by cases u; exact hctor) ha
    | error e =>
      obtain ⟨r, rfl⟩ : ∃ r, m' = r + 1 := ⟨m' - 1, by omega⟩
      have hrest := ih (a + 1) (r + 1) (by omega)
        (fun j h1 h2 => hfail j (by omega) (by omega)) (by rw [show a + 1 + f = a + (f + 1) by omega]; exact hok)
      simp [initLoop, hctor, hrest, List.replicate]

/-- Helper for C5: if init fails at every attempt a, a+1, ..., a+m, then
a budget of m+1 attempts is exhausted: m+1 invocations, m delays of
2000 ms, and the loop re-throws the outcome of the last attempt. -/
theorem initLoop_all_fail {ε : Type} (init : Nat → Except ε Unit) :
    ∀ (m a : Nat), (∀ j, a ≤ j → j ≤ a + m → init j ≠ Except.ok ()) →
      initLoop init a (m + 1) = ⟨m + 1, List.replicate m 2000, init (a + m)⟩ := by
  intro m
  induction m with
  | zero =>
    intro a hfail
    have ha : init a ≠ Except.ok () := hfail a (Nat.le_refl a) (by omega)
    cases hctor : init a with
    | ok u => exact absurd (by cases u; exact hctor) ha
    | error e => simp [initLoop, hctor]
  | succ m ih =>
    intro a hfail
    have ha : init a ≠ Except.ok () := hfail a (Nat.le_refl a) (by omega)
    cases hctor : init a with
    | ok u => exact absurd (by cases u; exact hctor) ha
    | error e =>
      have hrest := ih (a + 1) (fun j h1 h2 => hfail j (by omega) (by omega))
      have harith : a + 1 + m = a + (m + 1) := by omega
      rw [harith] at hrest
      simp [initLoop, hctor, hrest, List.replicate]

/-- C5: with the default budget of 3 attempts, initWithRetry invokes
init once per attempt with a fixed 2000 ms delay between consecutive
attempts; if the k-th attempt is the first to succeed (k at most 3) it
returns normally after exactly k invocations and k-1 delays; if every
attempt fails it re-throws the last failure after exactly 3 invocations
and the process exits with status 1. -/
theorem initWithRetry_retry_bound (init : Nat → Except String Unit) :
    (∀ k, 1 ≤ k → k ≤ 3 →
      (∀ j, 1 ≤ j → j < k → init j ≠ Except.ok ()) →
      init k = Except.ok () →
      initWithRetry 3 init = ⟨k, List.replicate (k - 1) 2000, Except.ok ()⟩) ∧
    ((∀ j, 1 ≤ j → j ≤ 3 → init j ≠ Except.ok ()) →
      initWithRetry 3 init = ⟨3, List.replicate 2 2000, init 3⟩ ∧
      mainInit init = some 1) := by
  constructor
  · intro k hk1 hk3 hfail hok
    have h := initLoop_success init (k - 1) 1 3 (by omega)
      (fun j h1 h2 => hfail j h1 (by omega))
      (by rw [show 1 + (k - 1) = k by omega]; exact hok)
    rw [show k - 1 + 1 = k by omega] at h
    exact h
  · intro hfail
    have h := initLoop_all_fail init 2 1 (fun j h1 h2 => hfail j h1 (by omega))
    have h3 : initWithRetry 3 init = ⟨3, List.replicate 2 2000, init 3⟩ := h
    refine ⟨h3, ?_⟩
    have hne : init 3 ≠ Except.ok () := hfail 3 (by omega) (by omega)
    cases hctor : init 3 with
    | ok u => exact absurd (by cases u; exact hctor) hne
    | error e => simp [mainInit, h3, hctor]

/-- Witness for C5: an engine stub failing on the first attempt and
succeeding on the second returns after 2 invocations with one 2000 ms
delay; a stub that always fails exhausts 3 invocations, re-throws, and
the process exits with status 1. -/
theorem initWithRetry_retry_bound_witness :
    initWithRetry 3 (fun j => if j = 2 then Except.ok () else Except.error "down") =
      ⟨2, List.replicate 1 2000, Except.ok ()⟩ ∧
    initWithRetry 3 (fun _ => (Except.error "down" : Except String Unit)) =
      ⟨3, List.replicate 2 2000, Except.error "down"⟩ ∧
    mainInit (fun _ => (Except.error "down" : Except String Unit)) = some 1 := by
  refine ⟨?_, ?_, ?_⟩
  · exact (initWithRetry_retry_bound _).1 2 (by omega) (by omega)
      (by
        intro j h1 h2
        have hj : j = 1 := by omega
        subst hj
        intro hc
        simp at hc)
      (by simp)
  · exact ((initWithRetry_retry_bound _).2
      (by intro j _ _ hc; exact Except.noConfusion hc)).1
  · exact ((initWithRetry_retry_bound _).2
      (by intro j _ _ hc; exact Except.noConfusion hc)).2

/-- Helper: the filter is the conjunction of the three rejection tests
being off. -/
theorem filterPred_eq_and (dateParse : String → Option Int) (q : QueryFilterSpec)
    (m : Meta) :
    filterPred dateParse q m =
      (!kindRejects q.kind m.kind &&
        (!tagsReject q.tags m.tags && !sinceRejects dateParse q.since m.timestamp)) := by
  unfold filterPred
  cases hk : kindRejects q.kind m.kind <;>
    cases ht : tagsReject q.tags m.tags <;>
      cases hs : sinceRejects dateParse q.since m.timestamp <;> simp

/-- Helper: the kind rejection test is off exactly when every supplied
non-empty kind is matched exactly by the candidate kind. -/
theorem kindRejects_eq_false_iff (qk mk : Option String) :
    kindRejects qk mk = false ↔ (∀ k, qk = some k → k ≠ "" → mk = some k) := by
  cases qk with
  | none => simp [kindRejects]
  | some k =>
    simp only [kindRejects, Bool.and_eq_false_iff, decide_eq_false_iff_not,
      Option.some.injEq, forall_eq', not_not]
    tauto

/-- Helper: the tags rejection test is off exactly when, for every
supplied tag list, the candidate has a tag list sharing at least one
tag with it. -/
theorem tagsReject_eq_false_iff (qt mt : Option (List String)) :
    tagsReject qt mt = false ↔
      (∀ l, qt = some l → ∃ ml, mt = some ml ∧ (l.any fun t => ml.contains t) = true) := by
  cases qt with
  | none => simp [tagsReject]
  | some l =>
    cases mt with
    | none => simp [tagsReject]
    | some ml => simp [tagsReject]

/-- C3 counterexample: a search call supplying since (parsing to instant
100) against a candidate whose metadata has NO timestamp field.  The
claim requires the candidate to be rejected (fail-closed); the code
retains it, because the truthiness guard meta?.timestamp skips the
comparison when the field is absent. -/
theorem since_missing_timestamp_retained :
    filterPred (fun _ => some 100) ⟨none, none, some "2024-01-01"⟩
      ⟨none, none, none⟩ = true := by decide

/-- C3 amended: when a since constraint is supplied (non-empty and
parsing to instant d) and no other constraint is supplied, a candidate
is retained iff its timestamp is absent, zero, or not earlier than d —
that is, the constraint only rejects candidates carrying a truthy
timestamp strictly earlier than d, and a candidate without a timestamp
passes (fail-open). -/
theorem since_filter_fail_open (dateParse : String → Option Int) (s : String)
    (d : Int) (m : Meta) (hs : s ≠ "") (hd : dateParse s = some d) :
    filterPred dateParse ⟨none, none, some s⟩ m = true ↔
      (∀ t, m.timestamp = some t → t ≠ 0 → d ≤ t) := by
  rw [filterPred_eq_and]
  cases mts : m.timestamp with
  | none => simp [kindRejects, tagsReject, sinceRejects, mts]
  | some t =>
    simp only [kindRejects, tagsReject, sinceRejects, mts, hd, hs, Bool.not_false,
      Bool.true_and, Bool.not_eq_true', Bool.and_eq_false_iff,
      decide_eq_false_iff_not, not_not, Option.some.injEq, forall_eq',
      false_or]
    omega

/-- Witness for C3: since parses to 100 and the candidate timestamp is
150, not earlier than 100, so the candidate is retained. -/
theorem since_filter_fail_open_witness :
    filterPred (fun _ => some 100) ⟨none, none, some "2024-01-01"⟩
      ⟨none, none, some 150⟩ = true :=
  (since_filter_fail_open (fun _ => some 100) "2024-01-01" 100
    ⟨none, none, some 150⟩ (by decide) rfl).mpr
    (by intro t ht _; injection ht with h; omega)

/-- C7 counterexample: a filter supplying the empty string as kind
against a candidate of kind decision.  The claim requires rejection
(metadata.kind does not equal the requested value); the code retains
the candidate, because the empty string is falsy in JavaScript and the
kind test is skipped entirely. -/
theorem kind_empty_string_retained :
    filterPred (fun _ => none) ⟨some "", none, none⟩
      ⟨some "decision", none, none⟩ = true := by decide

/-- C7 amended: with no since constraint, a candidate is retained iff
every supplied constraint holds, where a supplied kind counts only when
non-empty (a supplied empty-string kind imposes no constraint): a
supplied non-empty kind must equal the candidate kind exactly (missing
kind rejects), and a supplied tag list must share at least one tag with
the candidate tag list (missing tags rejects); with no constraints
supplied every candidate is retained. -/
theorem filter_kind_tags_conjunction (dateParse : String → Option Int)
    (q : QueryFilterSpec) (m : Meta) (hsince : q.since = none) :
    filterPred dateParse q m = true ↔
      ((∀ k, q.kind = some k → k ≠ "" → m.kind = some k) ∧
       (∀ l, q.tags = some l →
         ∃ ml, m.tags = some ml ∧ (l.any fun t => ml.contains t) = true)) := by
  rw [filterPred_eq_and, hsince]
  simp only [sinceRejects, Bool.not_false, Bool.and_true, Bool.and_eq_true,
    Bool.not_eq_true']
  rw [kindRejects_eq_false_iff, tagsReject_eq_false_iff]

/-- Witness for C7: the spec example candidate with kind decision and
tags auth, jwt is retained by the filter kind decision with tags jwt. -/
theorem filter_kind_tags_conjunction_witness :
    filterPred (fun _ => none) ⟨some "decision", some ["jwt"], none⟩
      ⟨some "decision", some ["auth", "jwt"], some 1700000000⟩ = true :=
  (filter_kind_tags_conjunction (fun _ => none)
    ⟨some "decision", some ["jwt"], none⟩
    ⟨some "decision", some ["auth", "jwt"], some 1700000000⟩ rfl).mpr
    ⟨by intro k hk _; injection hk with h; rw [← h],
     by intro l hl; injection hl with h; exact ⟨["auth", "jwt"], rfl, by rw [← h]; decide⟩⟩

/-- C9: when the supplied since string does not parse (Date.parse is
NaN, embedded as none), the since constraint rejects no candidate: the
filter gives the same verdict as with since not supplied, for every
candidate and every kind and tags constraint, because the JavaScript
comparison timestamp < NaN is always false. -/
theorem since_unparseable_noop (dateParse : String → Option Int) (s : String)
    (qk : Option String) (qt : Option (List String)) (m : Meta)
    (h : dateParse s = none) :
    filterPred dateParse ⟨qk, qt, some s⟩ m = filterPred dateParse ⟨qk, qt, none⟩ m := by
  have hsr : sinceRejects dateParse (some s) m.timestamp = false := by
    cases mts : m.timestamp with
    | none => simp [sinceRejects]
    | some t => simp [sinceRejects, h]
  have hsr0 : sinceRejects dateParse none m.timestamp = false := rfl
  rw [filterPred_eq_and, filterPred_eq_and, hsr, hsr0]

/-- Witness for C9: with an unparseable since string, a candidate with
an arbitrarily old timestamp gets the same verdict as without since. -/
theorem since_unparseable_noop_witness :
    filterPred (fun _ => none) ⟨none, none, some "not-a-date"⟩ ⟨none, none, some 5⟩ =
      filterPred (fun _ => none) ⟨none, none, none⟩ ⟨none, none, some 5⟩ :=
  since_unparseable_noop (fun _ => none) "not-a-date" none none ⟨none, none, some 5⟩ rfl

/-- C4 counterexample: a health call whose probe succeeds, starting from
5 recorded searches.  The claim requires the probe to increment the
searches counter to 6; the handler leaves it at 5 — it never touches
metrics.searches (only the semantic_search handler increments it). -/
theorem health_probe_search_not_counted :
    semanticHealthHandler (Except.ok ()) 7 ⟨5, 2, 1, 0⟩ =
      Except.ok (⟨healthyText 7 ⟨5, 2, 1, 0⟩⟩, ⟨5, 2, 1, 0⟩) := rfl

/-- C4 amended: a call to the health tool leaves every metrics counter
unchanged — including searches: the internal probe search is issued
directly against the engine and does not increment any counter. -/
theorem health_metrics_frame (probe : Except String Unit) (sz : Nat) (ms : Metrics) :
    ∃ r, semanticHealthHandler probe sz ms = Except.ok (r, ms) := by
  cases probe with
  | ok u => exact ⟨⟨healthyText sz ms⟩, rfl⟩
  | error e => exact ⟨⟨"❌ Unhealthy: " ++ e⟩, rfl⟩

/-- C10: if the probe search of the health tool throws, the handler
catches the error and returns a normal response whose text reports the
unhealthy state together with the error message; nothing is re-thrown
(the handler settles with ok) and no counter — in particular errors —
is incremented. -/
theorem health_probe_failure_caught (e : String) (sz : Nat) (ms : Metrics) :
    semanticHealthHandler (Except.error e) sz ms =
      Except.ok (⟨"❌ Unhealthy: " ++ e⟩, ms) := rfl

/-- C6 counterexample: the health handler issues its probe search and
its size read outside the operation queue, and the stats handler reads
the size outside the queue — contradicting the claim that every engine
call of every tool handler executes inside a queued task. -/
theorem engine_access_outside_queue :
    (healthEngineCalls true).all (fun c => c.insideQueue) = false ∧
    statsEngineCalls.all (fun c => c.insideQueue) = false := by decide

/-- C6 amended: every engine call made by a tool handler executes
inside a task submitted to the operation queue, EXCEPT those of the
health tool (its probe search and its size read) and the size read of
the stats tool, which invoke the engine directly outside any queued
task. -/
theorem engine_access_queueing :
    searchEngineCalls.all (fun c => c.insideQueue) = true ∧
    indexEngineCalls.all (fun c => c.insideQueue) = true ∧
    indexBatchEngineCalls.all (fun c => c.insideQueue) = true ∧
    (∀ found : Bool, (removeEngineCalls found).all (fun c => c.insideQueue) = true) ∧
    (∀ confirm : Bool, (clearEngineCalls confirm).all (fun c => c.insideQueue) = true) ∧
    (∀ probeOk : Bool, (healthEngineCalls probeOk).all (fun c => !c.insideQueue) = true) ∧
    statsEngineCalls.all (fun c => !c.insideQueue) = true := by decide

/-- C8: a clear call with confirm false executes no engine operation,
submits no task to the queue, leaves every metrics counter (including
errors) unchanged, and returns the explanatory cancellation response;
and across both values of confirm, the engine clear operation runs
exactly when confirm is true. -/
theorem clear_confirmation_gating (sz : Nat) (sp : String) (ms : Metrics) :
    (semanticClearHandler false sz sp ms).engineOps = [] ∧
    (semanticClearHandler false sz sp ms).submittedToQueue = false ∧
    (semanticClearHandler false sz sp ms).metrics = ms ∧
    (semanticClearHandler false sz sp ms).response =
      ⟨"⚠️ Cancelled. Set confirm: true to proceed"⟩ ∧
    (∀ confirm : Bool,
      ((semanticClearHandler confirm sz sp ms).engineOps.contains EngineOp.clearOp) =
        confirm) := by
  refine ⟨rfl, rfl, rfl, rfl, ?_⟩
  intro confirm
  cases confirm <;> rfl

end MCPSemSearch
